import Mathlib

/-!
Shallow embedding of xkcd_checker.py.

The script polls the xkcd JSON API, checks a flat history file
(xkcd_history.txt, one comic number per line) for the fetched comic
number, optionally downloads the comic image, emails the comic via
sendgrid or smtp, and appends the comic number to the history file
only when the email was sent successfully.

Modelling choices:
- External effects are supplied by an `Env` record: the list of
  successive API responses (requests.get consumes one per call; `none`
  models a requests.RequestException or a JSON parse failure), boolean
  success flags for directory creation, history-file writability,
  image-file writability, image fetch, smtp authentication, and email
  send success.
- Mutable state is an `St` record: the history file content
  (`Option String`: `none` means the file does not exist) and a trace
  of the network/send events the run performed, in order.
- `sys.exit(n)` is `Except.error (n, st)`, carrying the state at exit.
- Strings model Python str; the history file is modelled at the byte
  level as a `String`, and `readlines`/`strip` are modelled faithfully
  (readlines keeps the newline terminator; strip removes whitespace at
  both ends).
- logging calls, os.chdir, and message composition (subject/body,
  MIME structure) have no bearing on the verified claims and are not
  modelled; the attachment read is assumed to succeed (check_settings
  guarantees download precedes attachment use).
-/

namespace XkcdChecker

/-- The fields of the xkcd API JSON object that the modelled control
flow reads: the comic number and the image URL. -/
structure XkcdDict where
  num : Nat
  img : String
  deriving DecidableEq, Repr

/-- The settings the modelled control flow reads from xkcd_settings.py.
Python truthiness of sendgrid_api_key: the empty string is falsy. -/
structure Settings where
  send_method : String
  mail_attachment : Bool
  download : Bool
  sendgrid_api_key : String
  deriving DecidableEq, Repr

/-- Network and send events a run performs, in order. -/
inductive Event where
  | fetchApi
  | fetchImage
  | sendEmail
  deriving DecidableEq, Repr

/-- External world: successive API responses and success flags for the
fallible external operations. -/
structure Env where
  apiResults : List (Option XkcdDict)
  comicDirOk : Bool
  historyWritable : Bool
  imageSaveOk : Bool
  imageFetchOk : Bool
  smtpAuthOk : Bool
  sendSuccess : Bool
  deriving DecidableEq, Repr

/-- Run state: history file content (none = file absent) and the event
trace so far. -/
structure St where
  history : Option String
  events : List Event
  deriving DecidableEq, Repr

/-- Content of the history file, reading an absent file as empty. -/
def contentOf (h : Option String) : String := h.getD ""

/-- The next response requests.get would produce. -/
def nextResponse (env : Env) : Option XkcdDict :=
  match env.apiResults with
  | [] => none
  | r :: _ => r

/-- Python str.strip character class (ASCII whitespace). -/
def pyWs (c : Char) : Bool :=
  c = ' ' || c = '\t' || c = '\n' || c = '\r' || c = '\x0b' || c = '\x0c'

/-- str.strip on a character list: drop whitespace at both ends. -/
def pyStripL (l : List Char) : List Char :=
  ((l.dropWhile pyWs).reverse.dropWhile pyWs).reverse

/-- Python str.strip. -/
def pyStrip (s : String) : String := ⟨pyStripL s.toList⟩

/-- file.readlines: split after each newline, keeping the terminator;
a final fragment without terminator is its own line. -/
def pyReadlinesAux : List Char → List Char → List String
  | [], [] => []
  | [], acc => [⟨acc.reverse⟩]
  | c :: rest, acc =>
    if c = '\n' then ⟨(c :: acc).reverse⟩ :: pyReadlinesAux rest []
    else pyReadlinesAux rest (c :: acc)

/-- file.readlines on the file content. -/
def pyReadlines (s : String) : List String := pyReadlinesAux s.toList []

/-- Drop one trailing newline terminator, if present. -/
def stripNL (s : String) : String :=
  if s.toList.getLast? = some '\n' then ⟨s.toList.dropLast⟩ else s

/-- Modelled from the spec: the lines of a text file, without their
newline terminators, as the spec's phrase "line of the history file"
reads.  Used to compare the spec's exact-match wording against the
code's stripped comparison. -/
def specLines (c : String) : List String := (pyReadlines c).map stripNL

/-- The membership scan of is_downloaded on an existing history file:
some readline, stripped, equals str(num).  The code iterates
reversed(f.readlines()). -/
def lineMatch (content : String) (n : Nat) : Bool :=
  ((pyReadlines content).reverse).any (fun l => pyStrip l == Nat.repr n)

/-- check_xkcd: one requests.get of the API; on RequestException (or a
parse failure) logs and sys.exit(1); otherwise returns the dict. -/
def check_xkcd (env : Env) (st : St) : Except (Nat × St) (XkcdDict × St) :=
  let st' : St := { st with events := st.events ++ [Event.fetchApi] }
  match nextResponse env with
  | some d => .ok (d, st')
  | none => .error (1, st')

/-- is_downloaded: open the history file and scan its lines, stripped,
for str(num), scanning in reverse; if the open fails because the file
is absent, create it empty (mode w) and report not-found; if even the
create fails, sys.exit(1). -/
def is_downloaded (env : Env) (d : XkcdDict) (st : St) : Except (Nat × St) (Bool × St) :=
  match st.history with
  | some content => .ok (lineMatch content d.num, st)
  | none =>
    if env.historyWritable = true then
      .ok (false, { st with history := some "" })
    else
      .error (1, st)

/-- get_local_filename: str(num) + "-" + os.path.basename(img).
basename keeps everything after the last slash. -/
def basename (p : String) : String :=
  ⟨(p.toList.reverse.takeWhile (fun c => c != '/')).reverse⟩

/-- get_local_filename on an xkcd dict. -/
def get_local_filename (d : XkcdDict) : String :=
  Nat.repr d.num ++ "-" ++ basename d.img

/-- download_latest: if downloading is disabled, return the filename
without any I/O.  Otherwise: os.makedirs(comic_dir), then open the
history file in mode at+ (a writability probe that creates the file if
absent), then open the image file for writing and requests.get the
image; each failure is sys.exit(1). -/
def download_latest (env : Env) (s : Settings) (d : XkcdDict) (st : St) :
    Except (Nat × St) (String × St) :=
  let comic_filename := get_local_filename d
  if s.download = false then
    .ok (comic_filename, st)
  else if env.comicDirOk = false then
    .error (1, st)
  else if env.historyWritable = false then
    .error (1, st)
  else
    let st' : St := { st with history := some (contentOf st.history) }
    if env.imageSaveOk = false then
      .error (1, st')
    else
      let st'' : St := { st' with events := st'.events ++ [Event.fetchImage] }
      if env.imageFetchOk = false then
        .error (1, st'')
      else
        .ok (comic_filename, st'')

/-- email_latest: dispatch on send_method.  sendgrid: send, return
False on success else the truthy result tuple.  smtp: sys.exit(1) on
SMTPAuthenticationError, else sendmail and return its error dict
(empty, hence falsy, on success).  Any other send_method: sys.exit(1).
The returned Bool is the Python truthiness of the return value. -/
def email_latest (env : Env) (s : Settings) (st : St) : Except (Nat × St) (Bool × St) :=
  if s.send_method = "sendgrid" then
    let st' : St := { st with events := st.events ++ [Event.sendEmail] }
    .ok (!env.sendSuccess, st')
  else if s.send_method = "smtp" then
    if env.smtpAuthOk = false then
      .error (1, st)
    else
      let st' : St := { st with events := st.events ++ [Event.sendEmail] }
      .ok (!env.sendSuccess, st')
  else
    .error (1, st)

/-- check_settings: mail_attachment requires download; sendgrid
requires a truthy sendgrid_api_key; each violation is sys.exit(1). -/
def check_settings (s : Settings) (st : St) : Except (Nat × St) St :=
  if s.mail_attachment = true ∧ s.download = false then
    .error (1, st)
  else if s.send_method = "sendgrid" ∧ s.sendgrid_api_key = "" then
    .error (1, st)
  else
    .ok st

/-- update_history: open the history file in mode at (appending,
creating if absent) and write str(num) + a newline; an IOError is
sys.exit(1). -/
def update_history (env : Env) (d : XkcdDict) (st : St) : Except (Nat × St) (Bool × St) :=
  if env.historyWritable = true then
    .ok (true, { st with history := some (contentOf st.history ++ Nat.repr d.num ++ "\n") })
  else
    .error (1, st)

/-- The tail of main once the identifier is known to be new:
download_latest; email_latest; if the send reported an error,
sys.exit(1); else update_history. -/
def mainTail (env : Env) (s : Settings) (d : XkcdDict) (st : St) : Except (Nat × St) St := do
  let (_, st) ← download_latest env s d st
  let (send_error, st) ← email_latest env s st
  if send_error then
    .error (1, st)
  else
    let (_, st) ← update_history env d st
    return st

/-- main: check_settings; check_xkcd; if is_downloaded, return (exit
0); otherwise the download/notify/record tail. -/
def mainE (env : Env) (s : Settings) (st : St) : Except (Nat × St) St := do
  let st ← check_settings s st
  let (d, st) ← check_xkcd env st
  let (found, st) ← is_downloaded env d st
  if found then
    return st
  else
    mainTail env s d st

/-- The history file content at the end of a step, whether it exited
or returned. -/
def histOfP {α : Type} : Except (Nat × St) (α × St) → Option String
  | .error (_, st) => st.history
  | .ok (_, st) => st.history

/-- The history file content at the end of main, whether it exited or
returned. -/
def histOf : Except (Nat × St) St → Option String
  | .error (_, st) => st.history
  | .ok st => st.history

/-- Whether the file content is empty or ends in a newline (every line
carries its terminator). -/
def newlineTerminated (c : String) : Bool :=
  c.toList.isEmpty || (c.toList.getLast? == some '\n')

/-- A whole process run: exit status and final state. -/
def runMain (env : Env) (s : Settings) (h0 : Option String) : Nat × St :=
  match mainE env s ⟨h0, []⟩ with
  | .error (n, st) => (n, st)
  | .ok st => (0, st)

/-! ### Reduction helpers for the Except-based control flow -/

theorem bind_ok {α β : Type} (a : α) (f : α → Except (Nat × St) β) :
    (Except.ok a >>= f : Except (Nat × St) β) = f a := rfl

theorem bind_error {α β : Type} (e : Nat × St) (f : α → Except (Nat × St) β) :
    (Except.error e >>= f : Except (Nat × St) β) = Except.error e := rfl

theorem check_settings_ok (s : Settings) (st : St)
    (h1 : ¬(s.mail_attachment = true ∧ s.download = false))
    (h2 : ¬(s.send_method = "sendgrid" ∧ s.sendgrid_api_key = "")) :
    check_settings s st = .ok st := by
  simp [check_settings, h1, h2]

theorem check_xkcd_ok (env : Env) (st : St) (d : XkcdDict)
    (h : nextResponse env = some d) :
    check_xkcd env st = .ok (d, ⟨st.history, st.events ++ [Event.fetchApi]⟩) := by
  simp [check_xkcd, h]

/-- C8: for every record, the derived local filename is the decimal
identifier, a hyphen, and the basename of the image URL; for
identifier 999 and image URL https://example.com/path/pic.png it is
exactly "999-pic.png". -/
theorem C8_filename_derivation :
    get_local_filename ⟨999, "https://example.com/path/pic.png"⟩ = "999-pic.png"
    ∧ ∀ d : XkcdDict, get_local_filename d = Nat.repr d.num ++ "-" ++ basename d.img :=
  ⟨by decide, fun _ => rfl⟩

/-- C1 counterexample: the first API response fails while a second
request would succeed; the claim predicts a retry and a successful
run, but the process exits with status 1 having performed exactly one
fetch (the trace holds a single fetchApi event). -/
theorem C1_counterexample :
    runMain ⟨[none, some ⟨100, "u"⟩], true, true, true, true, true, true⟩
        ⟨"smtp", false, false, ""⟩ (some "")
      = (1, ⟨some "", [Event.fetchApi]⟩) := by
  rfl

/-- C1 amended: when the HTTP GET to the comic API or the parse of its
JSON response fails, the program exits immediately with status 1,
performing no wait and no second fetch attempt: the trace at exit
holds exactly one fetchApi event. -/
theorem C1_fetch_failure_fatal_without_retry (env : Env) (s : Settings) (h0 : Option String)
    (h1 : ¬(s.mail_attachment = true ∧ s.download = false))
    (h2 : ¬(s.send_method = "sendgrid" ∧ s.sendgrid_api_key = ""))
    (h : nextResponse env = none) :
    runMain env s h0 = (1, ⟨h0, [Event.fetchApi]⟩) := by
  simp [runMain, mainE, check_settings_ok s _ h1 h2, check_xkcd, h, bind_ok, bind_error, pure, Except.pure]

/-- C1 witness: the amended theorem at a concrete failing fetch. -/
theorem C1_witness :
    runMain ⟨[none], true, true, true, true, true, true⟩ ⟨"smtp", false, false, ""⟩ none
      = (1, ⟨none, [Event.fetchApi]⟩) :=
  C1_fetch_failure_fatal_without_retry _ _ _ (by decide) (by decide) rfl

/-- C3: when the fetched identifier already appears in the history
file (stripped-line match), the run performs no image download and no
notification send, leaves the history file unchanged, and exits with
status zero; the trace holds only the API fetch. -/
theorem C3_already_downloaded_noop (env : Env) (s : Settings) (c : String) (d : XkcdDict)
    (h1 : ¬(s.mail_attachment = true ∧ s.download = false))
    (h2 : ¬(s.send_method = "sendgrid" ∧ s.sendgrid_api_key = ""))
    (h3 : nextResponse env = some d)
    (h4 : lineMatch c d.num = true) :
    runMain env s (some c) = (0, ⟨some c, [Event.fetchApi]⟩) := by
  simp [runMain, mainE, check_settings_ok s _ h1 h2, check_xkcd_ok env _ d h3,
    is_downloaded, h4, bind_ok, bind_error, pure, Except.pure]

/-- C3 witness: a concrete already-recorded identifier. -/
theorem C3_witness :
    runMain ⟨[some ⟨7, "a.png"⟩], true, true, true, true, true, true⟩
        ⟨"smtp", false, false, ""⟩ (some "7\n")
      = (0, ⟨some "7\n", [Event.fetchApi]⟩) :=
  C3_already_downloaded_noop _ _ _ _ (by decide) (by decide) rfl (by decide)

/-- C2: when the notification step reports a send failure, the history
file content is unchanged and the process exits with status 1; the
identifier is not appended. -/
theorem C2_send_failure_history_unchanged (env : Env) (s : Settings) (h0 : Option String)
    (d : XkcdDict)
    (h1 : ¬(s.mail_attachment = true ∧ s.download = false))
    (h2 : ¬(s.send_method = "sendgrid" ∧ s.sendgrid_api_key = ""))
    (h3 : nextResponse env = some d)
    (h4 : lineMatch (contentOf h0) d.num = false)
    (h5 : env.historyWritable = true)
    (h6 : env.comicDirOk = true) (h7 : env.imageSaveOk = true) (h8 : env.imageFetchOk = true)
    (h9 : env.smtpAuthOk = true)
    (h10 : s.send_method = "smtp" ∨ s.send_method = "sendgrid")
    (h11 : env.sendSuccess = false) :
    (runMain env s h0).1 = 1 ∧ (runMain env s h0).2.history = some (contentOf h0) := by
  obtain hm | hm := h10 <;> cases h0 <;> cases hd : s.download <;>
    simp_all [runMain, mainE, mainTail, check_settings, check_xkcd_ok, is_downloaded, download_latest,
      email_latest, update_history, contentOf, bind_ok, bind_error, pure, Except.pure]

/-- C2 witness: a concrete failed send leaves the history content
unchanged and exits 1. -/
theorem C2_witness :
    (runMain ⟨[some ⟨5, "a/b.png"⟩], true, true, true, true, true, false⟩
        ⟨"smtp", false, true, ""⟩ (some "1\n")).1 = 1
    ∧ (runMain ⟨[some ⟨5, "a/b.png"⟩], true, true, true, true, true, false⟩
        ⟨"smtp", false, true, ""⟩ (some "1\n")).2.history = some (contentOf (some "1\n")) :=
  C2_send_failure_history_unchanged _ _ _ ⟨5, "a/b.png"⟩ (by decide) (by decide) rfl
    (by decide) rfl rfl rfl rfl rfl (Or.inl rfl) rfl

/-- C4: for an identifier not present in the history file, a run that
completes successfully leaves the history file equal to its prior
content followed by the decimal identifier and a terminating
newline. -/
theorem C4_new_id_appended (env : Env) (s : Settings) (h0 : Option String) (d : XkcdDict)
    (h1 : ¬(s.mail_attachment = true ∧ s.download = false))
    (h2 : ¬(s.send_method = "sendgrid" ∧ s.sendgrid_api_key = ""))
    (h3 : nextResponse env = some d)
    (h4 : lineMatch (contentOf h0) d.num = false)
    (h5 : env.historyWritable = true)
    (h6 : env.comicDirOk = true) (h7 : env.imageSaveOk = true) (h8 : env.imageFetchOk = true)
    (h9 : env.smtpAuthOk = true)
    (h10 : s.send_method = "smtp" ∨ s.send_method = "sendgrid")
    (h11 : env.sendSuccess = true) :
    (runMain env s h0).1 = 0
    ∧ (runMain env s h0).2.history = some (contentOf h0 ++ Nat.repr d.num ++ "\n") := by
  obtain hm | hm := h10 <;> cases h0 <;> cases hd : s.download <;>
    simp_all [runMain, mainE, mainTail, check_settings, check_xkcd_ok, is_downloaded, download_latest,
      email_latest, update_history, contentOf, bind_ok, bind_error, pure, Except.pure]

/-- C4 witness: a concrete successful run appends exactly the
identifier line. -/
theorem C4_witness :
    (runMain ⟨[some ⟨5, "a/b.png"⟩], true, true, true, true, true, true⟩
        ⟨"smtp", false, true, ""⟩ (some "1\n")).1 = 0
    ∧ (runMain ⟨[some ⟨5, "a/b.png"⟩], true, true, true, true, true, true⟩
        ⟨"smtp", false, true, ""⟩ (some "1\n")).2.history
      = some (contentOf (some "1\n") ++ Nat.repr 5 ++ "\n") :=
  C4_new_id_appended _ _ _ ⟨5, "a/b.png"⟩ (by decide) (by decide) rfl
    (by decide) rfl rfl rfl rfl rfl (Or.inl rfl) rfl

/-- C9: with the download flag disabled, the downloader performs no
file or network I/O (state unchanged, no events) and returns the
derived filename; any enabled run that completes returns the same
derived filename. -/
theorem C9_download_disabled_pure (env : Env) (s : Settings) (d : XkcdDict) (st : St)
    (h : s.download = false) :
    download_latest env s d st = .ok (get_local_filename d, st)
    ∧ ∀ (s' : Settings) (f : String) (st' : St),
        download_latest env s' d st = .ok (f, st') → f = get_local_filename d := by
  constructor
  · simp [download_latest, h]
  · intro s' f st' hok
    simp only [download_latest] at hok
    repeat' split at hok
    all_goals simp_all

/-- C9 witness: the disabled downloader at concrete inputs. -/
theorem C9_witness :
    download_latest ⟨[], true, true, true, true, true, true⟩ ⟨"smtp", false, false, ""⟩
        ⟨9, "d/e.png"⟩ ⟨some "1\n", []⟩
      = .ok (get_local_filename ⟨9, "d/e.png"⟩, ⟨some "1\n", []⟩) :=
  (C9_download_disabled_pure ⟨[], true, true, true, true, true, true⟩
    ⟨"smtp", false, false, ""⟩ ⟨9, "d/e.png"⟩ ⟨some "1\n", []⟩ rfl).1

/-- C10: with downloading enabled, the downloader probes the history
file for writability (append mode, creating it if absent) before the
image fetch: if the history file is not writable it exits with status
1 with the state unchanged (in particular no fetchImage event), and
any completed download implies the history file was writable and
exists afterwards. -/
theorem C10_history_probe_before_image_fetch (env : Env) (s : Settings) (d : XkcdDict) (st : St)
    (h : s.download = true) :
    (env.comicDirOk = true → env.historyWritable = false →
      download_latest env s d st = .error (1, st))
    ∧ ∀ (f : String) (st' : St), download_latest env s d st = .ok (f, st') →
        env.historyWritable = true ∧ st'.history.isSome = true := by
  constructor
  · intro hc hw
    simp [download_latest, h, hc, hw]
  · intro f st' hok
    simp only [download_latest] at hok
    repeat' split at hok
    all_goals simp_all [Bool.not_eq_false]
    obtain ⟨-, rfl⟩ := hok
    simp

/-- C10 witness: the probe failure and the completed-download fact at
concrete inputs. -/
theorem C10_witness :
    download_latest ⟨[], true, false, true, true, true, true⟩ ⟨"smtp", false, true, ""⟩
        ⟨9, "d/e.png"⟩ ⟨some "1\n", []⟩
      = .error (1, ⟨some "1\n", []⟩)
    ∧ ((⟨some "1\n", [Event.fetchImage]⟩ : St).history.isSome = true) :=
  ⟨(C10_history_probe_before_image_fetch ⟨[], true, false, true, true, true, true⟩
      ⟨"smtp", false, true, ""⟩ ⟨9, "d/e.png"⟩ ⟨some "1\n", []⟩ rfl).1 rfl rfl,
   ((C10_history_probe_before_image_fetch ⟨[], true, true, true, true, true, true⟩
      ⟨"smtp", false, true, ""⟩ ⟨9, "d/e.png"⟩ ⟨some "1\n", []⟩ rfl).2
      (get_local_filename ⟨9, "d/e.png"⟩) ⟨some "1\n", [Event.fetchImage]⟩ rfl).2⟩

/-- C5 counterexample: with an unrecognized transport selection
("bogus"), settings validation does not stop the run; the process does
exit with status 1, but only at the notification step, after the API
fetch: the trace at exit contains a fetchApi event, contradicting
"exits before performing any network activity". -/
theorem C5_counterexample :
    runMain ⟨[some ⟨1, "x"⟩], true, true, true, true, true, true⟩
        ⟨"bogus", false, false, ""⟩ (some "")
      = (1, ⟨some "", [Event.fetchApi]⟩)
    ∧ Event.fetchApi ∈ (runMain ⟨[some ⟨1, "x"⟩], true, true, true, true, true, true⟩
        ⟨"bogus", false, false, ""⟩ (some "")).2.events :=
  ⟨rfl, by decide⟩

/-- C5 amended: attachments enabled with download disabled, or the
sendgrid transport selected without its API key, cause an exit with
status 1 before any network or file activity (empty trace, history
untouched); an unrecognized transport selection also exits with status
1, but only at the notification step, after the API fetch has
happened. -/
theorem C5_amended_settings_validation :
    (∀ (env : Env) (s : Settings) (h0 : Option String),
      (s.mail_attachment = true ∧ s.download = false)
        ∨ (s.send_method = "sendgrid" ∧ s.sendgrid_api_key = "") →
      runMain env s h0 = (1, ⟨h0, []⟩))
    ∧ (∀ (env : Env) (s : Settings) (h0 : Option String) (d : XkcdDict),
      ¬(s.mail_attachment = true ∧ s.download = false) →
      s.send_method ≠ "sendgrid" → s.send_method ≠ "smtp" →
      nextResponse env = some d →
      lineMatch (contentOf h0) d.num = false →
      env.historyWritable = true → env.comicDirOk = true →
      env.imageSaveOk = true → env.imageFetchOk = true →
      (runMain env s h0).1 = 1
        ∧ Event.fetchApi ∈ (runMain env s h0).2.events) := by
  constructor
  · intro env s h0 hbad
    by_cases hfst : s.mail_attachment = true ∧ s.download = false
    · simp [runMain, mainE, check_settings, hfst, bind_error]
    · obtain hbad | hbad := hbad
      · exact absurd hbad hfst
      · simp [runMain, mainE, check_settings, hfst, hbad, bind_error]
  · intro env s h0 d h1 hsg hsm h3 h4 h5 h6 h7 h8
    have h2 : ¬(s.send_method = "sendgrid" ∧ s.sendgrid_api_key = "") := fun h => hsg h.1
    cases h0 <;> cases hd : s.download <;>
      simp_all [runMain, mainE, mainTail, check_settings, check_xkcd_ok, is_downloaded, download_latest,
        email_latest, contentOf, bind_ok, bind_error, pure, Except.pure]

/-- C5 witness: both amended parts at concrete inputs: attachment
without download exits with an empty trace; a bogus transport exits 1
with the API fetch already in the trace. -/
theorem C5_witness :
    runMain ⟨[], true, true, true, true, true, true⟩ ⟨"smtp", true, false, ""⟩ none
      = (1, ⟨none, []⟩)
    ∧ (runMain ⟨[some ⟨2, "i"⟩], true, true, true, true, true, true⟩
        ⟨"bogus", false, false, ""⟩ none).1 = 1
    ∧ Event.fetchApi ∈ (runMain ⟨[some ⟨2, "i"⟩], true, true, true, true, true, true⟩
        ⟨"bogus", false, false, ""⟩ none).2.events :=
  ⟨C5_amended_settings_validation.1 _ _ _ (Or.inl (by decide)),
   C5_amended_settings_validation.2 ⟨[some ⟨2, "i"⟩], true, true, true, true, true, true⟩
     ⟨"bogus", false, false, ""⟩ none ⟨2, "i"⟩ (by decide) (by decide) (by decide) rfl
     (by decide) rfl rfl rfl rfl⟩

/-- C6 counterexample: with history file content " 42\n" (a line that
does not equal "42" but strips to it) and fetched identifier 42, the
membership check returns true although no line of the file equals the
decimal string "42". -/
theorem C6_counterexample :
    is_downloaded ⟨[], true, true, true, true, true, true⟩ ⟨42, "i"⟩ ⟨some " 42\n", []⟩
      = .ok (true, ⟨some " 42\n", []⟩)
    ∧ ¬ ∃ l ∈ specLines " 42\n", l = Nat.repr 42 :=
  ⟨rfl, by decide⟩

/-- C6 amended: the membership check returns true iff some line of the
history file, after stripping surrounding whitespace (which in
particular removes the newline terminator), equals the decimal string
of the fetched identifier; it does not read or modify an existing
file's content, and if the history file does not exist it is created
empty and the check reports the identifier as not found. -/
theorem C6_amended_membership (env : Env) (d : XkcdDict) (c : String) (ev : List Event) :
    (is_downloaded env d ⟨some c, ev⟩ = .ok (lineMatch c d.num, ⟨some c, ev⟩)
      ∧ (lineMatch c d.num = true ↔ ∃ l ∈ pyReadlines c, pyStrip l = Nat.repr d.num))
    ∧ (env.historyWritable = true →
        is_downloaded env d ⟨none, ev⟩ = .ok (false, ⟨some "", ev⟩)) := by
  refine ⟨⟨rfl, ?_⟩, fun h => by simp [is_downloaded, h]⟩
  simp [lineMatch]

/-- C6 witness: the amended characterization at concrete inputs. -/
theorem C6_witness :
    (lineMatch "3\n" 3 = true ↔ ∃ l ∈ pyReadlines "3\n", pyStrip l = Nat.repr 3)
    ∧ is_downloaded ⟨[], true, true, true, true, true, true⟩ ⟨3, "i"⟩ ⟨none, []⟩
        = .ok (false, ⟨some "", []⟩) :=
  ⟨(C6_amended_membership ⟨[], true, true, true, true, true, true⟩ ⟨3, "i"⟩ "3\n" []).1.2,
   (C6_amended_membership ⟨[], true, true, true, true, true, true⟩ ⟨3, "i"⟩ "3\n" []).2 rfl⟩

/-! ### String-level facts about readlines, strip and decimal
identifiers, used for the history-file invariant -/

theorem toList_append (a b : String) : (a ++ b).toList = a.toList ++ b.toList := by
  cases a
  cases b
  rfl

theorem mk_toList (s : String) : (⟨s.toList⟩ : String) = s := by
  cases s
  rfl

theorem dropWhile_all_ws_false {l : List Char} (h : ∀ c ∈ l, pyWs c = false) :
    l.dropWhile pyWs = l := by
  cases l with
  | nil => rfl
  | cons a t => simp [List.dropWhile_cons, h a (List.mem_cons_self a t)]

theorem pyStripL_all_ws_false {l : List Char} (h : ∀ c ∈ l, pyWs c = false) :
    pyStripL l = l := by
  unfold pyStripL
  rw [dropWhile_all_ws_false h,
    dropWhile_all_ws_false (fun c hc => h c (List.mem_reverse.mp hc)), List.reverse_reverse]

theorem pyStripL_append_newline {l : List Char} (h : ∀ c ∈ l, pyWs c = false) :
    pyStripL (l ++ ['\n']) = l := by
  cases l with
  | nil => rfl
  | cons a t =>
    have ha := h a (List.mem_cons_self a t)
    have hrev : ∀ c ∈ t.reverse ++ [a], pyWs c = false := by
      intro c hc
      rcases List.mem_append.mp hc with hc | hc
      · exact h c (List.mem_cons_of_mem a (List.mem_reverse.mp hc))
      · rw [List.mem_singleton.mp hc]; exact ha
    have h1 : List.dropWhile pyWs (a :: (t ++ ['\n'])) = a :: (t ++ ['\n']) := by
      simp [List.dropWhile_cons, ha]
    have h2 : (a :: (t ++ ['\n'])).reverse = '\n' :: (t.reverse ++ [a]) := by simp
    have h3 : List.dropWhile pyWs ('\n' :: (t.reverse ++ [a])) = t.reverse ++ [a] := by
      rw [List.dropWhile_cons]
      simp [dropWhile_all_ws_false hrev, show pyWs '\x0a' = true from rfl]
    unfold pyStripL
    rw [List.cons_append, h1, h2, h3]
    simp

theorem pyReadlinesAux_nil_nil : pyReadlinesAux [] [] = [] := rfl

theorem pyReadlinesAux_cons (c : Char) (rest acc : List Char) :
    pyReadlinesAux (c :: rest) acc
      = if c = '\n' then ⟨(c :: acc).reverse⟩ :: pyReadlinesAux rest []
        else pyReadlinesAux rest (c :: acc) := rfl

theorem pyReadlinesAux_append_of_getLast_nl :
    ∀ (l : List Char), l.getLast? = some '\n' → ∀ (m acc : List Char),
      pyReadlinesAux (l ++ m) acc = pyReadlinesAux l acc ++ pyReadlinesAux m []
  | [], h => by simp at h
  | [c], h => by
    have hc : c = '\n' := by simpa using h
    subst hc
    intro m acc
    simp [pyReadlinesAux_cons, pyReadlinesAux_nil_nil]
  | c :: c2 :: t, h => by
    intro m acc
    have h' : (c2 :: t).getLast? = some '\n' := by
      rw [List.getLast?_cons_cons] at h
      exact h
    by_cases hc : c = '\n'
    · subst hc
      rw [List.cons_append, pyReadlinesAux_cons, pyReadlinesAux_cons, if_pos rfl, if_pos rfl,
        pyReadlinesAux_append_of_getLast_nl (c2 :: t) h' m [], List.cons_append]
    · rw [List.cons_append, pyReadlinesAux_cons, pyReadlinesAux_cons, if_neg hc, if_neg hc,
        pyReadlinesAux_append_of_getLast_nl (c2 :: t) h' m (c :: acc)]

theorem pyReadlinesAux_no_nl :
    ∀ (l : List Char), (∀ c ∈ l, c ≠ '\n') → ∀ acc : List Char,
      pyReadlinesAux (l ++ ['\n']) acc = [⟨acc.reverse ++ l ++ ['\n']⟩]
  | [], _ => fun acc => by
    simp [pyReadlinesAux_cons, pyReadlinesAux_nil_nil]
  | c :: t, h => fun acc => by
    have hc : c ≠ '\n' := h c (List.mem_cons_self c t)
    rw [List.cons_append, pyReadlinesAux_cons, if_neg hc,
      pyReadlinesAux_no_nl t (fun x hx => h x (List.mem_cons_of_mem c hx)) (c :: acc)]
    simp

theorem pyWs_digitChar_lt10 {m : Nat} (h : m < 10) : pyWs (Nat.digitChar m) = false := by
  interval_cases m <;> decide

theorem toDigitsCore_ws (fuel : Nat) :
    ∀ (n : Nat) (acc : List Char), (∀ c ∈ acc, pyWs c = false) →
      ∀ c ∈ Nat.toDigitsCore 10 fuel n acc, pyWs c = false := by
  induction fuel with
  | zero => intro n acc h c hc; exact h c hc
  | succ fuel ih =>
    intro n acc h c hc
    simp only [Nat.toDigitsCore] at hc
    split at hc
    · rcases List.mem_cons.mp hc with rfl | hc
      · exact pyWs_digitChar_lt10 (Nat.mod_lt _ (by decide))
      · exact h c hc
    · refine ih (n / 10) (Nat.digitChar (n % 10) :: acc) ?_ c hc
      intro x hx
      rcases List.mem_cons.mp hx with rfl | hx
      · exact pyWs_digitChar_lt10 (Nat.mod_lt _ (by decide))
      · exact h x hx

theorem repr_ws_false (n : Nat) : ∀ c ∈ (Nat.repr n).toList, pyWs c = false := by
  intro c hc
  exact toDigitsCore_ws (n + 1) n [] (by intro x hx; simp at hx) c hc

theorem repr_ne_nl (n : Nat) : ∀ c ∈ (Nat.repr n).toList, c ≠ '\n' := by
  intro c hc h
  have hw := repr_ws_false n c hc
  rw [h] at hw
  exact absurd hw (by decide)

theorem stripNL_concat_newline (l : List Char) : stripNL ⟨l ++ ['\n']⟩ = ⟨l⟩ := by
  unfold stripNL
  have h1 : (⟨l ++ ['\n']⟩ : String).toList = l ++ ['\n'] := rfl
  rw [h1, List.getLast?_concat, if_pos rfl, List.dropLast_concat]

theorem pyStrip_eq_of_stripNL (r : String) (n : Nat) (h : stripNL r = Nat.repr n) :
    pyStrip r = Nat.repr n := by
  unfold stripNL at h
  split at h
  · rename_i hlast
    have hdata : r.toList.dropLast = (Nat.repr n).toList := by
      rw [← h]
      rfl
    have hne : r.toList ≠ [] := by
      intro h0
      rw [h0] at hlast
      simp at hlast
    have hget : r.toList.getLast hne = '\n' := by
      have hg := List.getLast?_eq_getLast r.toList hne
      rw [hlast] at hg
      exact (Option.some.inj hg).symm
    have hr : r.toList = (Nat.repr n).toList ++ ['\n'] := by
      conv_lhs => rw [← List.dropLast_concat_getLast hne]
      rw [hget, hdata]
    unfold pyStrip
    rw [hr, pyStripL_append_newline (repr_ws_false n)]
    exact mk_toList _
  · rw [h] at *
    unfold pyStrip
    rw [pyStripL_all_ws_false (repr_ws_false n)]
    exact mk_toList _

theorem lineMatch_false_not_mem (c : String) (n : Nat) (h : lineMatch c n = false) :
    Nat.repr n ∉ specLines c := by
  intro hmem
  obtain ⟨r, hr, hstrip⟩ := List.mem_map.mp hmem
  have hps : pyStrip r = Nat.repr n := pyStrip_eq_of_stripNL r n hstrip
  have hall : ∀ x ∈ pyReadlines c, ¬pyStrip x = Nat.repr n := by
    simpa [lineMatch] using h
  exact hall r hr hps

theorem specLines_append_id (c : String) (n : Nat) (h : newlineTerminated c = true) :
    specLines (c ++ Nat.repr n ++ "\n") = specLines c ++ [Nat.repr n] := by
  have hlist : (c ++ Nat.repr n ++ "\n").toList
      = c.toList ++ ((Nat.repr n).toList ++ ['\n']) := by
    rw [toList_append, toList_append, List.append_assoc]
    rfl
  have h' : c.toList = [] ∨ c.toList.getLast? = some '\n' := by
    simpa [newlineTerminated] using h
  rcases h' with hc | hlast
  · unfold specLines pyReadlines
    rw [hlist, hc, List.nil_append,
      pyReadlinesAux_no_nl _ (repr_ne_nl n) []]
    simp only [List.reverse_nil, List.nil_append, List.map_cons, List.map_nil,
      pyReadlinesAux]
    rw [stripNL_concat_newline, mk_toList]
  · unfold specLines pyReadlines
    rw [hlist, pyReadlinesAux_append_of_getLast_nl c.toList hlast _ [],
      pyReadlinesAux_no_nl _ (repr_ne_nl n) []]
    simp only [List.reverse_nil, List.nil_append, List.map_append, List.map_cons,
      List.map_nil]
    rw [stripNL_concat_newline, mk_toList]

/-! ### How each step can change the history file -/

theorem email_latest_hist (env : Env) (s : Settings) (st : St) :
    histOfP (email_latest env s st) = st.history := by
  unfold email_latest
  repeat' split
  all_goals rfl

theorem download_latest_hist (env : Env) (s : Settings) (d : XkcdDict) (st : St) :
    histOfP (download_latest env s d st) = st.history
    ∨ histOfP (download_latest env s d st) = some (contentOf st.history) := by
  unfold download_latest
  repeat' split
  all_goals simp [histOfP]

theorem update_history_hist (env : Env) (d : XkcdDict) (st : St) :
    histOfP (update_history env d st) = st.history
    ∨ histOfP (update_history env d st)
        = some (contentOf st.history ++ Nat.repr d.num ++ "\n") := by
  unfold update_history
  split
  · right; rfl
  · left; rfl

theorem contentOf_some_contentOf (h : Option String) :
    contentOf (some (contentOf h)) = contentOf h := rfl

theorem mainTail_hist (env : Env) (s : Settings) (d : XkcdDict) (st : St) :
    histOf (mainTail env s d st) = st.history
    ∨ histOf (mainTail env s d st) = some (contentOf st.history)
    ∨ histOf (mainTail env s d st)
        = some (contentOf st.history ++ Nat.repr d.num ++ "\n") := by
  unfold mainTail
  have hdl := download_latest_hist env s d st
  cases hdl' : download_latest env s d st with
  | error e =>
    obtain ⟨n1, st1⟩ := e
    rw [hdl'] at hdl
    simp only [histOfP] at hdl
    simp only [bind_error, histOf]
    tauto
  | ok v =>
    obtain ⟨f1, st1⟩ := v
    rw [hdl'] at hdl
    simp only [histOfP] at hdl
    have hc1 : contentOf st1.history = contentOf st.history := by
      rcases hdl with h | h <;> rw [h]
      rfl
    simp only [bind_ok]
    have hem := email_latest_hist env s st1
    cases hem' : email_latest env s st1 with
    | error e2 =>
      obtain ⟨n2, st2⟩ := e2
      rw [hem'] at hem
      simp only [histOfP] at hem
      simp only [bind_error, histOf]
      rw [hem]
      tauto
    | ok v2 =>
      obtain ⟨serr, st2⟩ := v2
      rw [hem'] at hem
      simp only [histOfP] at hem
      simp only [bind_ok]
      cases serr with
      | true =>
        rcases hdl with h | h
        · left
          show st2.history = st.history
          rw [hem, h]
        · right; left
          show st2.history = some (contentOf st.history)
          rw [hem, h]
      | false =>
        simp only [Bool.false_eq_true, if_false]
        have hup := update_history_hist env d st2
        cases hup' : update_history env d st2 with
        | error e3 =>
          obtain ⟨n3, st3⟩ := e3
          rw [hup'] at hup
          simp only [histOfP] at hup
          simp only [bind_error, histOf]
          rcases hup with h | h
          · rw [h, hem]; tauto
          · rw [h, hem, hc1]; tauto
        | ok v3 =>
          obtain ⟨b3, st3⟩ := v3
          rw [hup'] at hup
          simp only [histOfP] at hup
          simp only [bind_ok, pure, Except.pure, histOf]
          rcases hup with h | h
          · rw [h, hem]; tauto
          · rw [h, hem, hc1]; tauto

/-- Every run leaves the history file either unchanged, or created
empty where it was absent, or with exactly the fetched identifier line
appended after the membership check reported it absent. -/
theorem main_history_cases (env : Env) (s : Settings) (h0 : Option String) :
    (runMain env s h0).2.history = h0
    ∨ (runMain env s h0).2.history = some (contentOf h0)
    ∨ ∃ d : XkcdDict, nextResponse env = some d
        ∧ lineMatch (contentOf h0) d.num = false
        ∧ (runMain env s h0).2.history
            = some (contentOf h0 ++ Nat.repr d.num ++ "\n") := by
  have hhist : (runMain env s h0).2.history = histOf (mainE env s ⟨h0, []⟩) := by
    unfold runMain
    cases hm : mainE env s ⟨h0, []⟩ with
    | error e => obtain ⟨n1, st1⟩ := e; rfl
    | ok st1 => rfl
  rw [hhist]
  unfold mainE
  by_cases hc1 : s.mail_attachment = true ∧ s.download = false
  · left
    simp [check_settings, hc1, bind_error, histOf]
  by_cases hc2 : s.send_method = "sendgrid" ∧ s.sendgrid_api_key = ""
  · left
    simp [check_settings, hc1, hc2, bind_error, histOf]
  rw [check_settings_ok s _ hc1 hc2, bind_ok]
  cases hr : nextResponse env with
  | none =>
    left
    simp [check_xkcd, hr, bind_error, histOf]
  | some d =>
    rw [check_xkcd_ok env _ d hr, bind_ok]
    cases h0 with
    | none =>
      cases hw : env.historyWritable with
      | false =>
        left
        simp [is_downloaded, hw, bind_error, histOf]
      | true =>
        simp only [is_downloaded, hw, if_pos rfl, bind_ok, Bool.false_eq_true, if_false]
        have := mainTail_hist env s d ⟨some "", [Event.fetchApi]⟩
        rcases this with h | h | h
        · right; left; simpa [contentOf] using h
        · right; left; simpa [contentOf] using h
        · right; right
          exact ⟨d, rfl, by simp [contentOf, lineMatch, pyReadlines, pyReadlinesAux_nil_nil],
            by simpa [contentOf] using h⟩
    | some c =>
      simp only [is_downloaded, bind_ok]
      cases hlm : lineMatch c d.num with
      | true =>
        left
        simp [pure, Except.pure, histOf]
      | false =>
        simp only [Bool.false_eq_true, if_false]
        have := mainTail_hist env s d ⟨some c, [Event.fetchApi]⟩
        rcases this with h | h | h
        · left; simpa using h
        · right; left; simpa [contentOf] using h
        · right; right
          exact ⟨d, rfl, by simpa [contentOf] using hlm, by simpa [contentOf] using h⟩

/-- C7 counterexample: a history file without a trailing newline on
its last line ("123\n12", each line unique) and fetched identifier 3:
the membership check finds no line "3", the run succeeds, and the
append merges "3" onto the dangling "12", producing "123\n123\n" in
which the identifier line "123" appears twice. -/
theorem C7_counterexample :
    (specLines "123\n12").Nodup
    ∧ runMain ⟨[some ⟨3, "x.png"⟩], true, true, true, true, true, true⟩
        ⟨"smtp", false, false, ""⟩ (some "123\n12")
      = (0, ⟨some "123\n123\n", [Event.fetchApi, Event.sendEmail]⟩)
    ∧ ¬ (specLines "123\n123\n").Nodup :=
  ⟨by decide, rfl, by decide⟩

/-- C7 amended: for every run starting from a history file that is
newline-terminated (or empty, or absent) and in which each line
appears at most once, the history file after the run still contains
each line at most once: the orchestrator appends only after the
membership check reports the identifier absent. -/
theorem C7_amended_nodup_preserved (env : Env) (s : Settings) (h0 : Option String)
    (hterm : newlineTerminated (contentOf h0) = true)
    (hnd : (specLines (contentOf h0)).Nodup) :
    (specLines (contentOf (runMain env s h0).2.history)).Nodup := by
  rcases main_history_cases env s h0 with h | h | ⟨d, _, hlm, h⟩
  · rw [h]
    exact hnd
  · rw [h, contentOf_some_contentOf]
    exact hnd
  · rw [h]
    rw [show contentOf (some (contentOf h0 ++ Nat.repr d.num ++ "\n"))
        = contentOf h0 ++ Nat.repr d.num ++ "\n" from rfl]
    rw [specLines_append_id _ _ hterm]
    have hnot := lineMatch_false_not_mem _ _ hlm
    exact List.Nodup.append hnd (List.nodup_singleton _)
      (fun a ha hb => hnot (by rwa [List.mem_singleton.mp hb] at ha))

/-- C7 witness: the amended preservation at a concrete successful
appending run. -/
theorem C7_witness :
    (specLines (contentOf (runMain ⟨[some ⟨2, "i"⟩], true, true, true, true, true, true⟩
      ⟨"smtp", false, false, ""⟩ (some "1\n")).2.history)).Nodup :=
  C7_amended_nodup_preserved ⟨[some ⟨2, "i"⟩], true, true, true, true, true, true⟩
    ⟨"smtp", false, false, ""⟩ (some "1\n") (by decide) (by decide)

end XkcdChecker
